import Mathlib

/-!
Verification of the Royal-Mail order/label pipeline.

Shallow embedding of the two batch jobs (src/unnamed/part_000 and
src/jobs/daily-pdf/index.js) and of the webhook receiver (src/server.js).
PDF buffers are modelled as lists of pages carrying their natural media-box
dimensions (rational points) and a content identifier; HTTP fetches are
modelled as oracles of type String → Option Buf (none = thrown fetch error);
the shipments table of the webhook receiver is a list of rows.
-/

namespace RoyalMail

/-- One page of a PDF document: its natural media-box width/height in points
and a content identifier distinguishing distinct label pages. -/
structure PageD where
  width : ℚ
  height : ℚ
  pid : ℕ
deriving DecidableEq

/-- A PDF buffer, modelled as the ordered list of its pages. -/
abbrev Buf := List PageD

/-- One order line item (src/jobs/daily-pdf/index.js, normalizer lines 90-94). -/
structure Item where
  sku : String
  name : String
  quantity : ℕ
deriving DecidableEq

/-- A normalized order (src/jobs/daily-pdf/index.js, fetchOrdersFromClickAndDrop),
restricted to the fields the verified components consume. -/
structure Order where
  orderNumber : String
  orderReference : String
  labelPdfUrl : Option String
  items : List Item
deriving DecidableEq

/-- JS expression `o.orderReference || o.orderNumber`: the empty string is falsy,
so it falls back to the order number exactly when the reference is empty. -/
def jsRef (o : Order) : String :=
  if o.orderReference = "" then o.orderNumber else o.orderReference

/-- JS `String.prototype.trim()`: strip whitespace from both ends. -/
def jsTrim (s : String) : String :=
  String.mk (((s.data.dropWhile Char.isWhitespace).reverse.dropWhile
    Char.isWhitespace).reverse)

/-- JS `String.prototype.toLowerCase()`. -/
def jsToLower (s : String) : String :=
  String.mk (s.data.map Char.toLower)

/-- Character-list prefix test. -/
def prefixChars : List Char → List Char → Bool
  | [], _ => true
  | _ :: _, [] => false
  | p :: ps, c :: cs => p == c && prefixChars ps cs

/-- JS `String.prototype.startsWith(pfx)`. -/
def strStartsWith (s pfx : String) : Bool :=
  prefixChars pfx.data s.data

/-- A resolved label for one order (spec §3 LabelRecord; the JS objects
`{ ref, buffer }` built in fetchLabelsForOrders, where buffer may be null). -/
structure LabelRecord where
  ref : String
  buffer : Option Buf
deriving DecidableEq

/-- Result of the label resolver together with whether the batch-label source
was consulted (the fall-through into the `if (RM_LABELS_PDF_URL)` block). -/
structure LabelsOutcome where
  records : List LabelRecord
  batchConsulted : Bool
deriving DecidableEq

/-- The per-order retrieval pass (src/jobs/daily-pdf/index.js lines 161-167):
an order without a labelPdfUrl, or whose fetch throws, contributes null. -/
def perOrderLabel1 (fetchRes : String → Option Buf) (o : Order) :
    Option LabelRecord :=
  match o.labelPdfUrl with
  | none => none
  | some url =>
    match fetchRes url with
    | some buf => some { ref := jsRef o, buffer := some buf }
    | none => none

/-- The whole per-order pass, results collected positionally
(`Promise.all(orders.map(...))`). -/
def perOrderLabels (fetchRes : String → Option Buf) (orders : List Order) :
    List (Option LabelRecord) :=
  orders.map (perOrderLabel1 fetchRes)

/-- The label resolver (src/jobs/daily-pdf/index.js, fetchLabelsForOrders,
lines 159-194).  `batchUrl` is RM_LABELS_PDF_URL (with the `{{since}}`
substitution already folded into the oracle), `batchFetch` the fetch+parse of
the batch PDF (none = fetch or PDFLib.load threw, the catch at line 189). -/
def fetchLabelsForOrders (fetchRes : String → Option Buf) (batchUrl : Option String)
    (batchFetch : String → Option Buf) (orders : List Order) : LabelsOutcome :=
  let perOrder := perOrderLabels fetchRes orders
  if perOrder.all (fun x => x.isSome) then
    { records := perOrder.reduceOption, batchConsulted := false }
  else
    match batchUrl with
    | some url =>
      match batchFetch url with
      | some pdf =>
        { records :=
            List.zipWith (fun o p => { ref := jsRef o, buffer := some [p] }) orders pdf,
          batchConsulted := true }
      | none =>
        { records := orders.map (fun o => { ref := jsRef o, buffer := none }),
          batchConsulted := true }
    | none =>
      { records := orders.map (fun o => { ref := jsRef o, buffer := none }),
        batchConsulted := false }

/-- The logical-dimension swap before fitting (src/jobs/daily-pdf/index.js
lines 230-231): `if ((rotate % 180) !== 0) [width, height] = [height, width]`. -/
def swapDims (rotateDeg : ℕ) (w h : ℚ) : ℚ × ℚ :=
  if rotateDeg % 180 ≠ 0 then (h, w) else (w, h)

/-- The uniform scale factor (line 234):
`Math.min(availWidth / width, availHeight / height)`. -/
def fitScale (availWidth availHeight w h : ℚ) : ℚ :=
  min (availWidth / w) (availHeight / h)

/-- Scale and drawn size of a label fitted into the panel (lines 228-236):
returns (scale, drawWidth, drawHeight) for the already-swapped dimensions. -/
def fitLabel (availWidth availHeight : ℚ) (rotateDeg : ℕ) (w h : ℚ) : ℚ × ℚ × ℚ :=
  let wh := swapDims rotateDeg w h
  let scale := fitScale availWidth availHeight wh.1 wh.2
  (scale, wh.1 * scale, wh.2 * scale)

/-- The arguments of the `page.drawPage` call for one embedded label
(lines 241-244), plus the embedded source page. -/
structure DrawnLabel where
  x : ℚ
  y : ℚ
  xScale : ℚ
  yScale : ℚ
  rotateDeg : ℕ
  srcPage : PageD
deriving DecidableEq

/-- Embedding one label buffer into the bottom panel of an A4 page
(src/jobs/daily-pdf/index.js lines 218-244).  `src.getPage(0)` of an empty
document throws; the catch at line 245 leaves the page without a label,
modelled by `none`. -/
def composeLabel (rotateDeg : ℕ) (pageWidth pageHeight : ℚ) (buf : Buf) :
    Option DrawnLabel :=
  match buf.head? with
  | none => none
  | some p =>
    let margin : ℚ := 36
    let availWidth := pageWidth - margin * 2
    let availHeight : ℚ := 360
    let f := fitLabel availWidth availHeight rotateDeg p.width p.height
    some { x := margin + (availWidth - f.2.1) / 2,
           y := margin + (pageHeight - margin - f.2.2) - 10,
           xScale := f.1, yScale := f.1,
           rotateDeg := rotateDeg, srcPage := p }

/-- `new Map(entries).get(k)`: JavaScript Map construction from a list of
key/value pairs lets a later pair overwrite an earlier one with the same key,
and `get` returns undefined (here: none) for an absent key. -/
def jsMapGet (entries : List (String × Option Buf)) (k : String) :
    Option (Option Buf) :=
  ((entries.filter (fun e => e.1 == k)).getLast?).map (fun e => e.2)

/-- One page of the final composed document: the despatch-note top rendered
from the order, plus the label drawn into it, if any. -/
structure ComposedPage where
  orderRef : String
  top : Order
  label : Option DrawnLabel
deriving DecidableEq

/-- The page compositor (src/jobs/daily-pdf/index.js, buildPackSheetsPDF,
lines 197-253): a ref-keyed map is built from the label records
(`String(l.ref || "")` is `l.ref` since the empty ref maps to the empty
string), then each order's page looks its label up by `jsRef`; a null buffer
or an absent entry both skip the drawPage call. -/
def buildPackSheetsPDF (rotateDeg : ℕ) (orders : List Order)
    (labels : List LabelRecord) : List ComposedPage :=
  let entries := labels.map (fun l => (l.ref, l.buffer))
  orders.map fun o =>
    { orderRef := jsRef o,
      top := o,
      label :=
        match jsMapGet entries (jsRef o) with
        | some (some buf) => composeLabel rotateDeg 595 842 buf
        | _ => none }

/-- The options object of one pdfkit `doc.text(...)` call, as far as the
despatch-note renderer supplies them (src/jobs/daily-pdf/index.js
lines 140-146): only x-position, column width and `continued` are ever
passed; no ellipsis and no height bound. -/
structure TextOpts where
  xPos : Option ℕ
  width : ℕ
  continued : Bool
  ellipsis : Bool
  heightLimit : Option ℕ
deriving DecidableEq

/-- The three text calls emitted for one item row (lines 142-144):
quantity (width 40), SKU (width 90), name (width 393), the last two falling
back to an em dash for the empty string (`it.sku || "—"`). -/
def itemRowCalls (it : Item) : List (String × TextOpts) :=
  [ (toString it.quantity,
     { xPos := some 36, width := 40, continued := true,
       ellipsis := false, heightLimit := none }),
    ((if it.sku = "" then "—" else it.sku),
     { xPos := none, width := 90, continued := true,
       ellipsis := false, heightLimit := none }),
    ((if it.name = "" then "—" else it.name),
     { xPos := none, width := 393, continued := false,
       ellipsis := false, heightLimit := none }) ]

/-- All text calls of the items loop (lines 140-146), in order. -/
def renderItemsCalls (items : List Item) : List (String × TextOpts) :=
  items.flatMap itemRowCalls

/-- The y coordinate of the faint divider marking the top of the reserved
label panel (line 150: `const labelTopY = 842 - 380`), drawn for every
order after the items loop, independently of anything in the order. -/
def labelTopY (_order : Order) : ℕ := 842 - 380

/-- Layout of a single pdfkit text call.  The pdfkit engine is an external
library (not part of src/): by its documented behaviour a call wraps text
exceeding the column width onto further lines, and truncates with an
ellipsis only when the call supplies both an ellipsis option and a height
bound; character advance width is approximated by a constant `cw`. -/
def textCallLines (cw : ℕ) (s : String) (o : TextOpts) : ℕ :=
  if o.ellipsis && o.heightLimit.isSome then 1
  else max 1 ((cw * s.length + o.width - 1) / o.width)

/-- An order of the tabular report job (src/unnamed/part_000, normalizer
lines 81-92). -/
structure TOrder where
  orderNumber : String
  recipientName : String
  addressLine1 : String
  city : String
  postcode : String
  trackingNumber : String
  service : String
deriving DecidableEq

/-- The global part of the row-address regex replace
(`.replace(/(^, |, ,)/g, "")`, src/unnamed/part_000 line 127): every
non-overlapping occurrence of the three characters ", ," is removed, the
scan resuming after each match. -/
def collapseCommaRuns : List Char → List Char
  | ',' :: ' ' :: ',' :: rest => collapseCommaRuns rest
  | c :: rest => c :: collapseCommaRuns rest
  | [] => []

/-- The full regex replace of line 127: the anchored alternative "^, " can
only fire at position 0, after which the global ", ," scan continues from
position 2. -/
def jsCleanAddr (s : String) : String :=
  let l := s.data
  let l1 := if l.take 2 = [',', ' '] then l.drop 2 else l
  String.mk (collapseCommaRuns l1)

/-- The tabular report renderer (src/unnamed/part_000, generateOrderPDF,
lines 96-143), modelled as the ordered list of text strings it draws:
header, window subtitle, the four column titles, then either the
"no orders" message (empty input, lines 116-120) or one group of four
strings per order. -/
def generateOrderPDF (brand : String) (orders : List TOrder)
    (windowLine : String) : List String :=
  let headerTexts := [brand ++ " — Royal Mail Orders", "Window: " ++ windowLine]
  let columnTexts := ["Order", "Recipient", "Address", "Tracking / Service"]
  if orders.isEmpty then
    headerTexts ++ columnTexts ++ ["No orders found in this window."]
  else
    headerTexts ++ columnTexts ++ orders.flatMap (fun o =>
      [o.orderNumber,
       o.recipientName,
       jsCleanAddr (o.addressLine1 ++ ", " ++ o.city ++ ", " ++ o.postcode),
       (if o.trackingNumber = "" then "—" else o.trackingNumber) ++ "\n" ++ o.service])

/-- Outcome of one tabular-report run (src/unnamed/part_000, run,
lines 162-174): the PDF is generated and then unconditionally emailed. -/
structure TabularRunResult where
  attachment : List String
  emailSent : Bool
deriving DecidableEq

/-- The tabular job's run (src/unnamed/part_000 lines 162-174) up to the
email boundary: generateOrderPDF then sendEmail. -/
def tabularRun (brand : String) (orders : List TOrder)
    (windowLine : String) : TabularRunResult :=
  { attachment := generateOrderPDF brand orders windowLine, emailSent := true }

/-- Environment-derived configuration of the pack-sheet job
(src/jobs/daily-pdf/index.js lines 11-40): brand name, ORDER_REF_PREFIX,
LABEL_ROTATE_DEG, and the formatted window bounds. -/
structure Config where
  brand : String
  refPfx : String
  rotateDeg : ℕ
  sinceStr : String
  nowStr : String
deriving DecidableEq

/-- The reference filter of run() (lines 314-317): with an empty trimmed
ORDER_REF_PREFIX no filtering happens, otherwise orders whose
`jsRef` starts with the prefix are kept, in input order. -/
def filterByPfx (pfx : String) (allOrders : List Order) : List Order :=
  if pfx = "" then allOrders
  else allOrders.filter (fun o => strStartsWith (jsRef o) pfx)

/-- Outcome of one pack-sheet run: composed pages, whether the email was
sent, its subject, and the console summary line. -/
structure RunResult where
  pages : List ComposedPage
  emailSent : Bool
  subject : String
  logLine : String
deriving DecidableEq

/-- The pack-sheet job's run (src/jobs/daily-pdf/index.js, run,
lines 306-343), with the order-source fetch already performed
(`allOrders`).  With zero filtered orders an empty document is still built
and emailed (lines 319-326); otherwise labels are resolved, pages composed
and the summary of line 338 logged. -/
def runJob (cfg : Config) (fetchRes : String → Option Buf)
    (batchUrl : Option String) (batchFetch : String → Option Buf)
    (allOrders : List Order) : RunResult :=
  let pfx := jsTrim cfg.refPfx
  let orders := filterByPfx pfx allOrders
  if orders.isEmpty then
    { pages := buildPackSheetsPDF cfg.rotateDeg [] [],
      emailSent := true,
      subject := cfg.brand ++ " — Pack Sheets — " ++ cfg.nowStr ++ " (No orders)",
      logLine := "No orders; sent empty pack sheet." }
  else
    let labels := fetchLabelsForOrders fetchRes batchUrl batchFetch orders
    { pages := buildPackSheetsPDF cfg.rotateDeg orders labels.records,
      emailSent := true,
      subject := cfg.brand ++ " — Pack Sheets — " ++ cfg.nowStr,
      logLine := "Sent " ++ toString orders.length ++ " pack sheets. Window "
        ++ cfg.sinceStr ++ " -> " ++ cfg.nowStr ++ " Prefix="
        ++ (if pfx = "" then "(none)" else pfx) }

/-- One row of the shipments table (src/server.js, init, lines 14-29). -/
structure Shipment where
  sid : ℕ
  order_id : String
  email : String
  tracking_number : String
  carrier : String
  status : String
  delivered_at : Option ℕ
  processed_delivered : Bool
  created_at : ℕ
  updated_at : ℕ
deriving DecidableEq

/-- HTTP responses the webhook handlers produce. -/
inductive Resp
  | badRequest
  | noContent
  | okJson
  | err502
deriving DecidableEq

/-- Outcome of one delivered-webhook request: the table afterwards, the
number of Klaviyo event POSTs attempted, and the HTTP response. -/
structure WebhookResult where
  db : List Shipment
  klaviyoPosts : ℕ
  resp : Resp
deriving DecidableEq

/-- The UPDATE of src/server.js lines 180-188: mark the row delivered and
processed, stamping delivered_at/updated_at. -/
def markDelivered (now : ℕ) (s : Shipment) : Shipment :=
  { s with status := "delivered", delivered_at := some now,
           processed_delivered := true, updated_at := now }

/-- The delivered-webhook handler (src/server.js, POST /royalmail-webhook,
lines 145-206).  `klaviyoOk` is whether the Klaviyo events POST succeeds;
on failure sendKlaviyoDelivered throws and the catch answers 502 without
touching the table.  The SELECT is `db.filter`; `rows[0]` is `head?`. -/
def royalmailWebhook (klaviyoOk : Bool) (now : ℕ) (db : List Shipment)
    (statusRaw trackingRaw : String) : WebhookResult :=
  let status := jsToLower statusRaw
  let tn := jsTrim trackingRaw
  if tn = "" then { db := db, klaviyoPosts := 0, resp := Resp.badRequest }
  else if status ≠ "delivered" then { db := db, klaviyoPosts := 0, resp := Resp.noContent }
  else
    match (db.filter (fun s => s.tracking_number == tn)).head? with
    | none => { db := db, klaviyoPosts := 0, resp := Resp.noContent }
    | some row =>
      if row.processed_delivered then
        { db := db, klaviyoPosts := 0, resp := Resp.okJson }
      else if klaviyoOk then
        { db := db.map (fun s => if s.sid = row.sid then markDelivered now s else s),
          klaviyoPosts := 1, resp := Resp.okJson }
      else
        { db := db, klaviyoPosts := 1, resp := Resp.err502 }

/-- The DO UPDATE SET clause of the fulfillment upsert (src/server.js
lines 125-129): only order_id, email, carrier and updated_at change. -/
def applyFulfillmentUpdate (now : ℕ) (oid em car : String) (s : Shipment) :
    Shipment :=
  { s with order_id := oid, email := em, carrier := car, updated_at := now }

/-- Next BIGSERIAL id for an insert. -/
def freshSid (db : List Shipment) : ℕ :=
  (db.map Shipment.sid).foldr max 0 + 1

/-- The INSERT ... ON CONFLICT (tracking_number) DO UPDATE of src/server.js
lines 121-131: tracking_number is unique, so a conflict updates the
matching row in place, otherwise a fresh in_transit row is appended. -/
def upsertShipment (now : ℕ) (oid em car tn : String) (db : List Shipment) :
    List Shipment :=
  if db.any (fun s => s.tracking_number == tn) then
    db.map (fun s =>
      if s.tracking_number == tn then applyFulfillmentUpdate now oid em car s else s)
  else
    db ++ [{ sid := freshSid db, order_id := oid, email := em,
             tracking_number := tn, carrier := car, status := "in_transit",
             delivered_at := none, processed_delivered := false,
             created_at := now, updated_at := now }]

/-- The fulfillment-webhook handler's table effect (src/server.js,
POST /shopify-fulfillment, lines 119-133): one upsert per truthy tracking
number, in order (`nums.filter(Boolean)`). -/
def shopifyFulfillment (now : ℕ) (oid em car : String) (nums : List String)
    (db : List Shipment) : List Shipment :=
  (nums.filter (fun t => t != "")).foldl
    (fun d tn => upsertShipment now oid em car tn d) db

/-- The long item name of the built-in SIMULATE order
(src/jobs/daily-pdf/index.js line 66), 109 characters. -/
def sampleLongName : String :=
  "Street Kingz Premium 1200GSM Heavy Duty Car Drying Towel - Ultra-Absorbent, 60x90cm - Twisted Loop Technology"

/-- The first line item of the SIMULATE order. -/
def sampleLongItem : Item :=
  { sku := "TS1200", name := sampleLongName, quantity := 1 }

/-- The options the renderer passes for the item-name column
(src/jobs/daily-pdf/index.js line 144): width 393 and nothing else. -/
def nameColumnOpts : TextOpts :=
  { xPos := none, width := 393, continued := false,
    ellipsis := false, heightLimit := none }

/-- Five orders, none with a direct label URL. -/
def batchOrders5 : List Order :=
  [⟨"O1", "O1", none, []⟩, ⟨"O2", "O2", none, []⟩, ⟨"O3", "O3", none, []⟩,
   ⟨"O4", "O4", none, []⟩, ⟨"O5", "O5", none, []⟩]

/-- A batch-label source whose document has exactly three pages. -/
def batchFetch3 : String → Option Buf :=
  fun _ => some [⟨100, 150, 1⟩, ⟨100, 150, 2⟩, ⟨100, 150, 3⟩]

/-! ### Helper lemmas -/

/-- Core fit facts for a positive box and positive content dimensions. -/
theorem fit_core (w h W H : ℚ) (hw : 0 < w) (hh : 0 < h) :
    w * min (W / w) (H / h) ≤ W ∧ h * min (W / w) (H / h) ≤ H ∧
    (w * min (W / w) (H / h) = W ∨ h * min (W / w) (H / h) = H) ∧
    (w * min (W / w) (H / h) ≠ W → H / h < W / w) ∧
    (h * min (W / w) (H / h) ≠ H → W / w < H / h) := by
  have hw0 : w ≠ 0 := ne_of_gt hw
  have hh0 : h ≠ 0 := ne_of_gt hh
  have hmulW : w * (W / w) = W := by field_simp
  have hmulH : h * (H / h) = H := by field_simp
  have hleW : min (W / w) (H / h) ≤ W / w := min_le_left _ _
  have hleH : min (W / w) (H / h) ≤ H / h := min_le_right _ _
  have h1 : w * min (W / w) (H / h) ≤ W := by
    calc w * min (W / w) (H / h) ≤ w * (W / w) :=
          mul_le_mul_of_nonneg_left hleW (le_of_lt hw)
      _ = W := hmulW
  have h2 : h * min (W / w) (H / h) ≤ H := by
    calc h * min (W / w) (H / h) ≤ h * (H / h) :=
          mul_le_mul_of_nonneg_left hleH (le_of_lt hh)
      _ = H := hmulH
  refine ⟨h1, h2, ?_, ?_, ?_⟩
  · rcases min_choice (W / w) (H / h) with hm | hm
    · left; rw [hm, hmulW]
    · right; rw [hm, hmulH]
  · intro hne
    rcases min_choice (W / w) (H / h) with hm | hm
    · exact absurd (by rw [hm, hmulW]) hne
    · refine lt_of_le_of_ne (hm ▸ hleW) ?_
      intro heq
      exact hne (by rw [hm, heq, hmulW])
  · intro hne
    rcases min_choice (W / w) (H / h) with hm | hm
    · refine lt_of_le_of_ne (hm ▸ hleH) ?_
      intro heq
      exact hne (by rw [hm, heq, hmulH])
    · exact absurd (by rw [hm, hmulH]) hne

/-! ### C1: uniform scale fits the label into the panel -/

/-- C1: for every label natural size (w,h), rotation in {0,90,180,270} and
panel (W,H), the compositor's scale is min(W/w', H/h') for the swapped
dimensions (w',h') = (h,w) when the rotation is 90 or 270 and (w,h)
otherwise; the drawn size is scale·(w',h'); both drawn dimensions are at
most the panel dimensions; at least one drawn dimension equals its panel
bound, the exception on each axis occurring exactly when the other axis's
scale is strictly smaller.  The last conjunct ties the fit to the
compositor's drawPage scale for its fixed A4 panel (availWidth
595 − 2·36 = 523, availHeight 360). -/
theorem c1_uniform_scale_fit (rot : ℕ) (w h W H : ℚ)
    (hrot : rot = 0 ∨ rot = 90 ∨ rot = 180 ∨ rot = 270)
    (hw : 0 < w) (hh : 0 < h) :
    (RoyalMail.fitLabel W H rot w h).1
        = (if rot = 90 ∨ rot = 270 then min (W / h) (H / w)
           else min (W / w) (H / h)) ∧
    (RoyalMail.fitLabel W H rot w h).2.1
        = (if rot = 90 ∨ rot = 270 then h else w) * (RoyalMail.fitLabel W H rot w h).1 ∧
    (RoyalMail.fitLabel W H rot w h).2.2
        = (if rot = 90 ∨ rot = 270 then w else h) * (RoyalMail.fitLabel W H rot w h).1 ∧
    (RoyalMail.fitLabel W H rot w h).2.1 ≤ W ∧
    (RoyalMail.fitLabel W H rot w h).2.2 ≤ H ∧
    ((RoyalMail.fitLabel W H rot w h).2.1 = W ∨
     (RoyalMail.fitLabel W H rot w h).2.2 = H) ∧
    ((RoyalMail.fitLabel W H rot w h).2.1 ≠ W →
        (if rot = 90 ∨ rot = 270 then H / w < W / h else H / h < W / w)) ∧
    ((RoyalMail.fitLabel W H rot w h).2.2 ≠ H →
        (if rot = 90 ∨ rot = 270 then W / h < H / w else W / w < H / h)) ∧
    (RoyalMail.composeLabel rot 595 842 [⟨w, h, 0⟩]).map RoyalMail.DrawnLabel.xScale
        = some (RoyalMail.fitLabel 523 360 rot w h).1 := by
  have hcompose : (RoyalMail.composeLabel rot 595 842 [⟨w, h, 0⟩]).map
      RoyalMail.DrawnLabel.xScale = some (RoyalMail.fitLabel 523 360 rot w h).1 := by
    simp only [RoyalMail.composeLabel, List.head?, Option.map_some]
    norm_num
  rcases hrot with rfl | rfl | rfl | rfl
  · have hc := fit_core w h W H hw hh
    simpa [RoyalMail.fitLabel, RoyalMail.swapDims, RoyalMail.fitScale, hcompose]
      using hc
  · have hc := fit_core h w W H hh hw
    simpa [RoyalMail.fitLabel, RoyalMail.swapDims, RoyalMail.fitScale, hcompose]
      using hc
  · have hc := fit_core w h W H hw hh
    simpa [RoyalMail.fitLabel, RoyalMail.swapDims, RoyalMail.fitScale, hcompose]
      using hc
  · have hc := fit_core h w W H hh hw
    simpa [RoyalMail.fitLabel, RoyalMail.swapDims, RoyalMail.fitScale, hcompose]
      using hc

/-- C1 witness: a 2×4 label rotated 90° into the 523×360 panel scales by
523/4, its drawn width is exactly the panel width 523 and its drawn height
523/2 stays below 360. -/
theorem c1_uniform_scale_fit_witness :
    (RoyalMail.fitLabel 523 360 90 2 4).1 = 523 / 4 ∧
    (RoyalMail.fitLabel 523 360 90 2 4).2.1 ≤ 523 ∧
    ((RoyalMail.fitLabel 523 360 90 2 4).2.1 = 523 ∨
     (RoyalMail.fitLabel 523 360 90 2 4).2.2 = 360) := by
  have h := c1_uniform_scale_fit 90 2 4 523 360 (Or.inr (Or.inl rfl))
    (by norm_num) (by norm_num)
  refine ⟨?_, h.2.2.2.1, h.2.2.2.2.2.1⟩
  norm_num [RoyalMail.fitLabel, RoyalMail.swapDims, RoyalMail.fitScale, min_def]

/-! ### C3: where the compositor actually places the label -/

/-- C3 (code_bug evidence): the drawPage x offset is indeed
margin + (availWidth − drawWidth)/2, but the y offset is
margin + (pageHeight − margin − drawHeight) − 10 = pageHeight − drawHeight − 10,
which pins the label's TOP edge 10pt below the top of the page instead of
anchoring it to the bottom panel.  For a 523×360 label at rotation 0
(scale 1) the label occupies y ∈ [472, 832], entirely above the reserved
bottom panel y ∈ [36, 396], and differs from the bottom-anchored position
margin + 10 = 46 the spec describes. -/
theorem c3_label_pinned_to_page_top :
    (RoyalMail.composeLabel 0 595 842 [⟨523, 360, 7⟩]).map
        (fun d => (d.x, d.y)) = some (36, 472) ∧
    (472 : ℚ) + 360 = 842 - 10 ∧
    ¬ ((472 : ℚ) + 360 ≤ 36 + 360) ∧
    (36 : ℚ) + 10 ≠ 472 := by
  refine ⟨?_, by norm_num, by norm_num, by norm_num⟩
  simp only [RoyalMail.composeLabel, List.head?_cons, Option.map_some]
  norm_num [RoyalMail.fitLabel, RoyalMail.swapDims, RoyalMail.fitScale, min_def]

/-! ### C4: item rows and the reserved panel -/

/-- C4 counterexample: rendering the SIMULATE order's first item, whose
109-character name at a 5pt character advance exceeds the 393pt name
column, yields text calls laying out on [1, 1, 2] lines — the name call
spans two lines, not exactly one — and no call in the row carries an
ellipsis or height option, so nothing truncates the name. -/
theorem c4_item_wraps_counterexample :
    (RoyalMail.renderItemsCalls [RoyalMail.sampleLongItem]).map
        (fun c => RoyalMail.textCallLines 5 c.1 c.2) = [1, 1, 2] ∧
    ¬ (2 = 1) ∧
    (RoyalMail.renderItemsCalls [RoyalMail.sampleLongItem]).all
        (fun c => !c.2.ellipsis && c.2.heightLimit.isNone) = true := by
  refine ⟨by decide, by decide, by decide⟩

/-- Each item row contributes exactly three text calls. -/
theorem renderItemsCalls_length (items : List RoyalMail.Item) :
    (RoyalMail.renderItemsCalls items).length = 3 * items.length := by
  induction items with
  | nil => rfl
  | cons it rest ih =>
    simp only [RoyalMail.renderItemsCalls, List.flatMap_cons, List.length_append,
      List.length_cons] at ih ⊢
    simp only [RoyalMail.itemRowCalls, List.length_cons, List.length_nil]
    omega

/-- C4 amended: every item is emitted as exactly three single text calls
(quantity, SKU, name) with the fixed column widths 40/90/393 and neither
an ellipsis nor a height option — so a name wider than its column wraps
onto at least a second line under the engine's default layout instead of
being truncated — while the reserved panel divider is drawn at the fixed
y = 842 − 380 = 462 for every order, independent of its items. -/
theorem c4_fixed_columns_no_truncation_amended (o : RoyalMail.Order)
    (items : List RoyalMail.Item) (cw : ℕ) :
    RoyalMail.labelTopY o = 462 ∧
    (RoyalMail.renderItemsCalls items).length = 3 * items.length ∧
    (∀ c ∈ RoyalMail.renderItemsCalls items,
        c.2.ellipsis = false ∧ c.2.heightLimit = none ∧
        (c.2.width = 40 ∨ c.2.width = 90 ∨ c.2.width = 393)) ∧
    (∀ c ∈ RoyalMail.renderItemsCalls items,
        c.2.width < cw * c.1.length → 2 ≤ RoyalMail.textCallLines cw c.1 c.2) := by
  have hopts : ∀ c ∈ RoyalMail.renderItemsCalls items,
      c.2.ellipsis = false ∧ c.2.heightLimit = none ∧
      (c.2.width = 40 ∨ c.2.width = 90 ∨ c.2.width = 393) := by
    intro c hc
    simp only [RoyalMail.renderItemsCalls, List.mem_flatMap] at hc
    obtain ⟨it, -, hc⟩ := hc
    simp only [RoyalMail.itemRowCalls, List.mem_cons, List.not_mem_nil, or_false]
      at hc
    rcases hc with rfl | rfl | rfl <;> simp
  refine ⟨rfl, renderItemsCalls_length items, hopts, ?_⟩
  intro c hc hlt
  obtain ⟨hell, -, hwidth⟩ := hopts c hc
  have hw : 0 < c.2.width := by rcases hwidth with h | h | h <;> omega
  have h2 : 2 ≤ (cw * c.1.length + c.2.width - 1) / c.2.width := by
    rw [Nat.le_div_iff_mul_le hw]
    omega
  have hval : RoyalMail.textCallLines cw c.1 c.2
      = max 1 ((cw * c.1.length + c.2.width - 1) / c.2.width) := by
    simp [RoyalMail.textCallLines, hell]
  rw [hval]
  exact le_trans h2 (le_max_right _ _)

/-- C4 witness: the amended statement at the SIMULATE item — the panel
divider sits at 462, the item yields three calls, and the name call
(109 characters at 5pt advance, overflowing the 393pt column) lays out on
at least two lines. -/
theorem c4_fixed_columns_witness :
    RoyalMail.labelTopY ⟨"VIV-10001", "VIV-10001", none, [RoyalMail.sampleLongItem]⟩ = 462 ∧
    (RoyalMail.renderItemsCalls [RoyalMail.sampleLongItem]).length = 3 ∧
    2 ≤ RoyalMail.textCallLines 5 RoyalMail.sampleLongName RoyalMail.nameColumnOpts := by
  have h := c4_fixed_columns_no_truncation_amended
    ⟨"VIV-10001", "VIV-10001", none, [RoyalMail.sampleLongItem]⟩
    [RoyalMail.sampleLongItem] 5
  refine ⟨h.1, by simpa using h.2.1, ?_⟩
  exact h.2.2.2 (RoyalMail.sampleLongName, RoyalMail.nameColumnOpts)
    (by decide) (by decide)

/-! ### Label resolver lemmas (C2, C5) -/

/-- A successful per-order entry carries the order's ref and a non-null buffer. -/
theorem perOrderLabel1_some (f : String → Option RoyalMail.Buf) (o : RoyalMail.Order)
    (r : RoyalMail.LabelRecord) (h : RoyalMail.perOrderLabel1 f o = some r) :
    r.ref = RoyalMail.jsRef o ∧ r.buffer.isSome = true := by
  unfold RoyalMail.perOrderLabel1 at h
  split at h
  · exact absurd h (by simp)
  · split at h
    · injection h with h
      subst h
      exact ⟨rfl, rfl⟩
    · exact absurd h (by simp)

/-- When every per-order fetch succeeded, the stripped records list carries
the orders' refs, in input order. -/
theorem perOrderLabels_refs (f : String → Option RoyalMail.Buf)
    (orders : List RoyalMail.Order)
    (h : (RoyalMail.perOrderLabels f orders).all (fun x => x.isSome) = true) :
    (RoyalMail.perOrderLabels f orders).reduceOption.map RoyalMail.LabelRecord.ref
      = orders.map RoyalMail.jsRef := by
  induction orders with
  | nil => rfl
  | cons o rest ih =>
    simp only [RoyalMail.perOrderLabels, List.map_cons, List.all_cons,
      Bool.and_eq_true] at h
    obtain ⟨h1, h2⟩ := h
    obtain ⟨r, hr⟩ := Option.isSome_iff_exists.mp h1
    have hr2 := perOrderLabel1_some f o r hr
    simp only [RoyalMail.perOrderLabels, List.map_cons, hr,
      List.reduceOption_cons_of_some]
    exact congrArg₂ List.cons hr2.1 (ih h2)

/-- When every per-order fetch succeeded, stripping the options preserves
the length. -/
theorem perOrderLabels_length_all (f : String → Option RoyalMail.Buf)
    (orders : List RoyalMail.Order)
    (h : (RoyalMail.perOrderLabels f orders).all (fun x => x.isSome) = true) :
    (RoyalMail.perOrderLabels f orders).reduceOption.length = orders.length := by
  have hall : ∀ x ∈ RoyalMail.perOrderLabels f orders, x.isSome := by
    intro x hx
    simpa using List.all_eq_true.mp h x hx
  rw [List.reduceOption_length_eq_iff.mpr hall]
  simp [RoyalMail.perOrderLabels]

/-- Positional access through reduceOption for an all-some list. -/
theorem reduceOption_getElem?_all {α : Type} (l : List (Option α))
    (h : l.all (fun x => x.isSome) = true) (i : ℕ) :
    l.reduceOption[i]? = (l[i]?).bind id := by
  induction l generalizing i with
  | nil => simp
  | cons a t ih =>
    simp only [List.all_cons, Bool.and_eq_true] at h
    rcases a with _ | x
    · simp at h
    · cases i with
      | zero => simp
      | succ n => simpa using ih h.2 n

/-- Taking min(length, b) elements is the same as taking b. -/
theorem take_min_length {α : Type} (l : List α) (b : ℕ) :
    l.take (min l.length b) = l.take b := by
  rcases Nat.le_total l.length b with h | h
  · rw [min_eq_left h, List.take_length, List.take_of_length_le h]
  · rw [min_eq_right h]

/-- Taking a map up to the source length is the whole map. -/
theorem take_full_map {α β : Type} (l : List α) (g : α → β) :
    (l.map g).take l.length = l.map g := by
  rw [← List.length_map l g, List.take_length]

/-- Zipping that only uses the left component is a take-and-map. -/
theorem zipWith_left_proj {α β γ : Type} (g : α → γ) :
    ∀ (l1 : List α) (l2 : List β),
      List.zipWith (fun a _ => g a) l1 l2 = (l1.take l2.length).map g
  | [], _ => by simp
  | _ :: _, [] => by simp
  | a :: t, _ :: u => by simp [zipWith_left_proj g t u]

/-! ### C2: one record per order, batch-page mapping -/

/-- C2 counterexample: with five orders, no per-order labels and a
three-page batch document, the resolver returns only three records (refs
O1-O3) — not one record per order with null labels for the last two. -/
theorem c2_batch_short_counterexample :
    (RoyalMail.fetchLabelsForOrders (fun _ => none) (some "BATCH")
        RoyalMail.batchFetch3 RoyalMail.batchOrders5).records.length = 3 ∧
    RoyalMail.batchOrders5.length = 5 ∧
    ¬ ((3 : ℕ) = 5) ∧
    (RoyalMail.fetchLabelsForOrders (fun _ => none) (some "BATCH")
        RoyalMail.batchFetch3 RoyalMail.batchOrders5).records.map
        RoyalMail.LabelRecord.ref = ["O1", "O2", "O3"] := by
  refine ⟨by decide, by decide, by decide, by decide⟩

/-- C2 amended: the resolver returns records in input order whose refs are
the prefix of the orders' refs matching the result length; one record per
order on the all-per-order path and on both all-null fallback paths; on
the successful batch path exactly min(pageCount, orderCount) records where
record i pairs order i's ref with page i of the batch — orders beyond the
batch's page count receive no record at all (instead of a null-label
record). -/
theorem c2_resolver_records_amended (f : String → Option RoyalMail.Buf)
    (bu : Option String) (bf : String → Option RoyalMail.Buf)
    (orders : List RoyalMail.Order) :
    ((RoyalMail.fetchLabelsForOrders f bu bf orders).records.map
        RoyalMail.LabelRecord.ref
      = (orders.map RoyalMail.jsRef).take
          (RoyalMail.fetchLabelsForOrders f bu bf orders).records.length) ∧
    ((RoyalMail.perOrderLabels f orders).all (fun x => x.isSome) = true →
      (RoyalMail.fetchLabelsForOrders f bu bf orders).records.length
        = orders.length) ∧
    ((RoyalMail.perOrderLabels f orders).all (fun x => x.isSome) = false →
      ∀ url pdf, bu = some url → bf url = some pdf →
        (RoyalMail.fetchLabelsForOrders f bu bf orders).records.length
            = min orders.length pdf.length ∧
        (∀ (i : ℕ) (o : RoyalMail.Order) (p : RoyalMail.PageD),
            orders[i]? = some o → pdf[i]? = some p →
          (RoyalMail.fetchLabelsForOrders f bu bf orders).records[i]?
            = some (⟨RoyalMail.jsRef o, some [p]⟩ : RoyalMail.LabelRecord)) ∧
        (∀ i : ℕ, pdf.length ≤ i →
          (RoyalMail.fetchLabelsForOrders f bu bf orders).records[i]? = none)) ∧
    ((RoyalMail.perOrderLabels f orders).all (fun x => x.isSome) = false →
      (bu = none ∨ ∃ url, bu = some url ∧ bf url = none) →
      (RoyalMail.fetchLabelsForOrders f bu bf orders).records
        = orders.map (fun o => ⟨RoyalMail.jsRef o, none⟩)) := by
  by_cases hall : (RoyalMail.perOrderLabels f orders).all (fun x => x.isSome) = true
  · have hrec : (RoyalMail.fetchLabelsForOrders f bu bf orders).records
        = (RoyalMail.perOrderLabels f orders).reduceOption := by
      simp [RoyalMail.fetchLabelsForOrders, hall]
    have hlen := perOrderLabels_length_all f orders hall
    refine ⟨?_, fun _ => by rw [hrec]; exact hlen,
      fun hfalse => absurd hall (by simp [hfalse]),
      fun hfalse => absurd hall (by simp [hfalse])⟩
    rw [hrec, perOrderLabels_refs f orders hall, hlen, take_full_map]
  · have hfalse := Bool.eq_false_iff.mpr hall
    cases bu with
    | none =>
      have hrec : (RoyalMail.fetchLabelsForOrders f none bf orders).records
          = orders.map (fun o => ⟨RoyalMail.jsRef o, none⟩) := by
        simp [RoyalMail.fetchLabelsForOrders, hfalse]
      refine ⟨?_, fun h => absurd h hall, ?_, fun _ _ => hrec⟩
      · rw [hrec, List.map_map, List.length_map]
        have hcomp : (RoyalMail.LabelRecord.ref ∘ fun o =>
            (⟨RoyalMail.jsRef o, none⟩ : RoyalMail.LabelRecord)) = RoyalMail.jsRef := by
          funext o
          rfl
        rw [hcomp, take_full_map]
      · intro _ url pdf hbu _
        cases hbu
    | some url =>
      cases hbf : bf url with
      | none =>
        have hrec : (RoyalMail.fetchLabelsForOrders f (some url) bf orders).records
            = orders.map (fun o => ⟨RoyalMail.jsRef o, none⟩) := by
          simp [RoyalMail.fetchLabelsForOrders, hfalse, hbf]
        refine ⟨?_, fun h => absurd h hall, ?_, fun _ _ => hrec⟩
        · rw [hrec, List.map_map, List.length_map]
          have hcomp : (RoyalMail.LabelRecord.ref ∘ fun o =>
              (⟨RoyalMail.jsRef o, none⟩ : RoyalMail.LabelRecord)) = RoyalMail.jsRef := by
            funext o
            rfl
          rw [hcomp, take_full_map]
        · intro _ url' pdf hbu hbf'
          injection hbu with hbu
          subst hbu
          rw [hbf] at hbf'
          cases hbf'
      | some pdf0 =>
        have hrec : (RoyalMail.fetchLabelsForOrders f (some url) bf orders).records
            = List.zipWith (fun o p => ⟨RoyalMail.jsRef o, some [p]⟩) orders pdf0 := by
          simp [RoyalMail.fetchLabelsForOrders, hfalse, hbf]
        refine ⟨?_, fun h => absurd h hall, ?_, ?_⟩
        · rw [hrec, List.map_zipWith, List.length_zipWith]
          simp only []
          rw [zipWith_left_proj, ← take_min_length orders pdf0.length, List.map_take]
        · intro _ url' pdf hbu hbf'
          injection hbu with hbu
          subst hbu
          rw [hbf] at hbf'
          injection hbf' with hbf'
          subst hbf'
          refine ⟨by rw [hrec, List.length_zipWith], ?_, ?_⟩
          · intro i o p ho hp
            rw [hrec]
            exact List.getElem?_zipWith_eq_some.mpr ⟨o, p, ho, hp, rfl⟩
          · intro i hi
            rw [hrec]
            apply List.getElem?_eq_none
            rw [List.length_zipWith]
            exact le_trans (min_le_right _ _) hi
        · intro _ hdisj
          rcases hdisj with hbu | ⟨url', hbu, hbf'⟩
          · cases hbu
          · injection hbu with hbu
            subst hbu
            rw [hbf] at hbf'
            cases hbf'

/-- C2 witness: the amended batch-path characterization at the concrete
five-order, three-page scenario: three records come back and the fourth
order has no record. -/
theorem c2_resolver_amended_witness :
    (RoyalMail.fetchLabelsForOrders (fun _ => none) (some "BATCH")
        RoyalMail.batchFetch3 RoyalMail.batchOrders5).records.length = 3 ∧
    (RoyalMail.fetchLabelsForOrders (fun _ => none) (some "BATCH")
        RoyalMail.batchFetch3 RoyalMail.batchOrders5).records[3]? = none := by
  have h := c2_resolver_records_amended (fun _ => none) (some "BATCH")
    RoyalMail.batchFetch3 RoyalMail.batchOrders5
  obtain ⟨hlen, -, hnone⟩ := h.2.2.1 (by decide) "BATCH"
    [⟨100, 150, 1⟩, ⟨100, 150, 2⟩, ⟨100, 150, 3⟩] rfl rfl
  constructor
  · rw [hlen]; decide
  · exact hnone 3 (by decide)

/-! ### C5: per-order set wins iff complete -/

/-- C5: the resolver leaves the batch source unconsulted and returns a set
of all-non-null records exactly when every order yielded a non-null
per-order label; in that case the records are positionally the per-order
results; otherwise the batch source is consulted exactly when one is
configured. -/
theorem c5_per_order_precedence (f : String → Option RoyalMail.Buf)
    (bu : Option String) (bf : String → Option RoyalMail.Buf)
    (orders : List RoyalMail.Order) :
    (((RoyalMail.fetchLabelsForOrders f bu bf orders).batchConsulted = false ∧
      (RoyalMail.fetchLabelsForOrders f bu bf orders).records.all
        (fun r => r.buffer.isSome) = true)
      ↔ (RoyalMail.perOrderLabels f orders).all (fun x => x.isSome) = true) ∧
    ((RoyalMail.perOrderLabels f orders).all (fun x => x.isSome) = true →
      ∀ i : ℕ, (RoyalMail.fetchLabelsForOrders f bu bf orders).records[i]?
          = ((RoyalMail.perOrderLabels f orders)[i]?).bind id) ∧
    ((RoyalMail.perOrderLabels f orders).all (fun x => x.isSome) = false →
      (RoyalMail.fetchLabelsForOrders f bu bf orders).batchConsulted
        = bu.isSome) := by
  by_cases hall : (RoyalMail.perOrderLabels f orders).all (fun x => x.isSome) = true
  · have hrec : (RoyalMail.fetchLabelsForOrders f bu bf orders).records
        = (RoyalMail.perOrderLabels f orders).reduceOption := by
      simp [RoyalMail.fetchLabelsForOrders, hall]
    have hcons : (RoyalMail.fetchLabelsForOrders f bu bf orders).batchConsulted
        = false := by
      simp [RoyalMail.fetchLabelsForOrders, hall]
    refine ⟨⟨fun _ => hall, fun _ => ⟨hcons, ?_⟩⟩, fun _ i => ?_, fun hf => ?_⟩
    · rw [hrec]
      rw [List.all_eq_true]
      intro r hr
      have hmem := List.reduceOption_mem_iff.mp hr
      simp only [RoyalMail.perOrderLabels, List.mem_map] at hmem
      obtain ⟨o, -, ho⟩ := hmem
      simpa using (perOrderLabel1_some f o r ho).2
    · rw [hrec]
      exact reduceOption_getElem?_all _ hall i
    · exact absurd hall (by simp [hf])
  · have hfalse := Bool.eq_false_iff.mpr hall
    have hcons : (RoyalMail.fetchLabelsForOrders f bu bf orders).batchConsulted
        = bu.isSome := by
      cases bu with
      | none => simp [RoyalMail.fetchLabelsForOrders, hfalse]
      | some url =>
        cases hbf : bf url <;>
          simp [RoyalMail.fetchLabelsForOrders, hfalse, hbf]
    refine ⟨⟨?_, fun h => absurd h hall⟩, fun h => absurd h hall, fun _ => hcons⟩
    rintro ⟨hc, hbuf⟩
    exfalso
    cases bu with
    | none =>
      have hrec : (RoyalMail.fetchLabelsForOrders f none bf orders).records
          = orders.map (fun o => ⟨RoyalMail.jsRef o, none⟩) := by
        simp [RoyalMail.fetchLabelsForOrders, hfalse]
      cases orders with
      | nil => exact hall (by rfl)
      | cons o rest =>
        rw [hrec] at hbuf
        simp at hbuf
    | some url =>
      rw [hcons] at hc
      simp at hc

/-- C5 witness: with one order whose direct label fetch succeeds, the
batch source is not consulted; with one order lacking a direct URL and a
configured batch source, it is. -/
theorem c5_per_order_precedence_witness :
    (RoyalMail.fetchLabelsForOrders (fun _ => some [⟨10, 20, 9⟩]) (some "B")
        (fun _ => none) [⟨"A", "A", some "u", []⟩]).batchConsulted = false ∧
    (RoyalMail.fetchLabelsForOrders (fun _ => none) (some "B")
        (fun _ => none) [⟨"A", "A", none, []⟩]).batchConsulted = true := by
  constructor
  · exact ((c5_per_order_precedence (fun _ => some [⟨10, 20, 9⟩]) (some "B")
      (fun _ => none) [⟨"A", "A", some "u", []⟩]).1.mpr (by decide)).1
  · have h := (c5_per_order_precedence (fun _ => none) (some "B")
      (fun _ => none) [⟨"A", "A", none, []⟩]).2.2 (by decide)
    simpa using h

/-! ### C10: label lookup is by reference string, last record wins -/

/-- Every composed page's label is determined by its ref through the
ref-keyed map. -/
theorem buildPackSheetsPDF_label_by_ref (rot : ℕ) (orders : List RoyalMail.Order)
    (labels : List RoyalMail.LabelRecord) (m : ℕ) (pg : RoyalMail.ComposedPage)
    (hpg : (RoyalMail.buildPackSheetsPDF rot orders labels)[m]? = some pg) :
    pg.label = (match RoyalMail.jsMapGet
        (labels.map (fun l' => (l'.ref, l'.buffer))) pg.orderRef with
      | some (some buf) => RoyalMail.composeLabel rot 595 842 buf
      | _ => none) := by
  simp only [RoyalMail.buildPackSheetsPDF, List.getElem?_map] at hpg
  obtain ⟨o, -, hfo⟩ := Option.map_eq_some'.mp hpg
  subst hfo
  rfl

/-- The ref-keyed map returns the buffer of the last record carrying the
key. -/
theorem jsMapGet_last_wins (pre post : List RoyalMail.LabelRecord)
    (l : RoyalMail.LabelRecord) (k : String) (hk : l.ref = k)
    (hpost : ∀ r ∈ post, r.ref ≠ k) :
    RoyalMail.jsMapGet ((pre ++ l :: post).map (fun l' => (l'.ref, l'.buffer))) k
      = some l.buffer := by
  unfold RoyalMail.jsMapGet
  rw [List.filter_map, List.filter_append, List.filter_cons]
  have hpc : List.filter
      ((fun e => e.1 == k) ∘ fun l' => (l'.ref, l'.buffer)) post = [] := by
    rw [List.filter_eq_nil_iff]
    intro r hr
    simp [hpost r hr]
  rw [hpc]
  have hcond : ((fun e => e.1 == k) ∘ fun l' => (l'.ref, l'.buffer)) l = true := by
    simp [hk]
  rw [if_pos hcond]
  rw [List.map_append, List.map_cons, List.map_nil, List.getLast?_concat]
  rfl

/-- C10: the compositor associates labels to orders by ref equality with
later records overwriting earlier ones: if `l` is the last label record
carrying ref `k`, then any two composed pages whose orderRef is `k` carry
the same drawn label, namely the one obtained from `l`'s buffer. -/
theorem c10_shared_ref_same_label (rot : ℕ) (orders : List RoyalMail.Order)
    (labels pre post : List RoyalMail.LabelRecord) (l : RoyalMail.LabelRecord)
    (k : String) (hsplit : labels = pre ++ l :: post) (hk : l.ref = k)
    (hpost : ∀ r ∈ post, r.ref ≠ k)
    (i j : ℕ) (pi pj : RoyalMail.ComposedPage)
    (hi : (RoyalMail.buildPackSheetsPDF rot orders labels)[i]? = some pi)
    (hj : (RoyalMail.buildPackSheetsPDF rot orders labels)[j]? = some pj)
    (hpi : pi.orderRef = k) (hpj : pj.orderRef = k) :
    pi.label = pj.label ∧
    pi.label = (match l.buffer with
      | some buf => RoyalMail.composeLabel rot 595 842 buf
      | none => none) := by
  have h1 := buildPackSheetsPDF_label_by_ref rot orders labels i pi hi
  have h2 := buildPackSheetsPDF_label_by_ref rot orders labels j pj hj
  rw [hpi] at h1
  rw [hpj] at h2
  rw [hsplit] at h1 h2
  rw [jsMapGet_last_wins pre post l k hk hpost] at h1 h2
  refine ⟨by rw [h1, h2], ?_⟩
  rw [h1]
  cases l.buffer <;> rfl

/-- C10 witness: two orders sharing ref VIV-1 and two label records for
VIV-1 — both composed pages carry the label derived from the second
(last) record's buffer. -/
theorem c10_shared_ref_same_label_witness :
    (⟨"VIV-1", ⟨"N1", "VIV-1", none, []⟩, none⟩ : RoyalMail.ComposedPage).label
      = (⟨"VIV-1", ⟨"N2", "VIV-1", none, []⟩, none⟩ : RoyalMail.ComposedPage).label ∧
    (⟨"VIV-1", ⟨"N1", "VIV-1", none, []⟩, none⟩ : RoyalMail.ComposedPage).label
      = (match (some ([] : RoyalMail.Buf) : Option RoyalMail.Buf) with
         | some buf => RoyalMail.composeLabel 0 595 842 buf
         | none => none) :=
  c10_shared_ref_same_label 0
    [⟨"N1", "VIV-1", none, []⟩, ⟨"N2", "VIV-1", none, []⟩]
    [⟨"VIV-1", some [⟨100, 50, 1⟩]⟩, ⟨"VIV-1", some []⟩]
    [⟨"VIV-1", some [⟨100, 50, 1⟩]⟩] [] ⟨"VIV-1", some []⟩ "VIV-1"
    rfl rfl (by simp) 0 1
    ⟨"VIV-1", ⟨"N1", "VIV-1", none, []⟩, none⟩
    ⟨"VIV-1", ⟨"N2", "VIV-1", none, []⟩, none⟩
    (by decide) (by decide) rfl rfl

/-! ### C7: zero orders still produce a document and an email -/

/-- C7: with zero orders in the window, the tabular job still produces a
non-empty document containing the "no orders" message and sends the email,
and the pack-sheet job produces a valid zero-page document, sends the
email, and flags the empty run in the subject. -/
theorem c7_empty_run_still_emails (brand windowLine : String)
    (cfg : RoyalMail.Config) (f : String → Option RoyalMail.Buf)
    (bu : Option String) (bf : String → Option RoyalMail.Buf) :
    (RoyalMail.tabularRun brand [] windowLine).emailSent = true ∧
    "No orders found in this window."
      ∈ (RoyalMail.tabularRun brand [] windowLine).attachment ∧
    (RoyalMail.tabularRun brand [] windowLine).attachment ≠ [] ∧
    (RoyalMail.runJob cfg f bu bf []).pages = [] ∧
    (RoyalMail.runJob cfg f bu bf []).emailSent = true ∧
    (RoyalMail.runJob cfg f bu bf []).subject
      = cfg.brand ++ " — Pack Sheets — " ++ cfg.nowStr ++ " (No orders)" := by
  refine ⟨rfl, ?_, ?_, ?_, ?_, ?_⟩
  · simp [RoyalMail.tabularRun, RoyalMail.generateOrderPDF]
  · simp [RoyalMail.tabularRun, RoyalMail.generateOrderPDF]
  · simp [RoyalMail.runJob, RoyalMail.filterByPfx, RoyalMail.buildPackSheetsPDF]
  · simp [RoyalMail.runJob, RoyalMail.filterByPfx]
  · simp [RoyalMail.runJob, RoyalMail.filterByPfx]

/-- C7 witness: the empty-window scenario at concrete configuration. -/
theorem c7_empty_run_still_emails_witness :
    (RoyalMail.tabularRun "Vivital" [] "W").emailSent = true ∧
    (RoyalMail.runJob ⟨"Vivital", "", 90, "S", "N"⟩ (fun _ => none) none
        (fun _ => none) []).pages = [] ∧
    (RoyalMail.runJob ⟨"Vivital", "", 90, "S", "N"⟩ (fun _ => none) none
        (fun _ => none) []).emailSent = true :=
  ⟨(c7_empty_run_still_emails "Vivital" "W" ⟨"Vivital", "", 90, "S", "N"⟩
      (fun _ => none) none (fun _ => none)).1,
   (c7_empty_run_still_emails "Vivital" "W" ⟨"Vivital", "", 90, "S", "N"⟩
      (fun _ => none) none (fun _ => none)).2.2.2.1,
   (c7_empty_run_still_emails "Vivital" "W" ⟨"Vivital", "", 90, "S", "N"⟩
      (fun _ => none) none (fun _ => none)).2.2.2.2.1⟩

/-! ### C8: reference-prefix filter and the summary log line -/

/-- C8 counterexample: two runs differing only in the total number of
orders (3 vs 4, same two VIV- matches) produce the identical summary log
line, so the line cannot reflect the filtered count versus the total. -/
theorem c8_log_omits_total_counterexample :
    (RoyalMail.runJob ⟨"Vivital", "VIV-", 90, "S", "N"⟩ (fun _ => none) none
        (fun _ => none)
        [⟨"VIV-1", "VIV-1", none, []⟩, ⟨"JD-2", "JD-2", none, []⟩,
         ⟨"VIV-3", "VIV-3", none, []⟩]).logLine
      = (RoyalMail.runJob ⟨"Vivital", "VIV-", 90, "S", "N"⟩ (fun _ => none) none
        (fun _ => none)
        [⟨"VIV-1", "VIV-1", none, []⟩, ⟨"JD-2", "JD-2", none, []⟩,
         ⟨"VIV-3", "VIV-3", none, []⟩, ⟨"JD-4", "JD-4", none, []⟩]).logLine ∧
    ([⟨"VIV-1", "VIV-1", none, []⟩, ⟨"JD-2", "JD-2", none, []⟩,
      ⟨"VIV-3", "VIV-3", none, []⟩] : List RoyalMail.Order).length = 3 ∧
    ([⟨"VIV-1", "VIV-1", none, []⟩, ⟨"JD-2", "JD-2", none, []⟩,
      ⟨"VIV-3", "VIV-3", none, []⟩, ⟨"JD-4", "JD-4", none, []⟩] :
        List RoyalMail.Order).length = 4 ∧
    (3 : ℕ) ≠ 4 := by
  refine ⟨by decide, by decide, by decide, by decide⟩

/-- C8 amended: the composed document contains exactly the prefix-matching
orders, in original input order, and the summary log line reports the
filtered (processed) count together with the window bounds and the active
filter — but not the total order count. -/
theorem c8_filter_and_log_amended (cfg : RoyalMail.Config)
    (f : String → Option RoyalMail.Buf) (bu : Option String)
    (bf : String → Option RoyalMail.Buf) (allOrders : List RoyalMail.Order)
    (hne : RoyalMail.filterByPfx (RoyalMail.jsTrim cfg.refPfx) allOrders ≠ []) :
    (RoyalMail.runJob cfg f bu bf allOrders).pages.map
        RoyalMail.ComposedPage.orderRef
      = (RoyalMail.filterByPfx (RoyalMail.jsTrim cfg.refPfx) allOrders).map RoyalMail.jsRef ∧
    (RoyalMail.jsTrim cfg.refPfx ≠ "" →
      RoyalMail.filterByPfx (RoyalMail.jsTrim cfg.refPfx) allOrders
        = allOrders.filter
            (fun o => RoyalMail.strStartsWith (RoyalMail.jsRef o) (RoyalMail.jsTrim cfg.refPfx))) ∧
    (RoyalMail.runJob cfg f bu bf allOrders).logLine
      = "Sent " ++ toString (RoyalMail.filterByPfx (RoyalMail.jsTrim cfg.refPfx) allOrders).length
        ++ " pack sheets. Window " ++ cfg.sinceStr ++ " -> " ++ cfg.nowStr
        ++ " Prefix="
        ++ (if RoyalMail.jsTrim cfg.refPfx = "" then "(none)" else RoyalMail.jsTrim cfg.refPfx) ∧
    (RoyalMail.runJob cfg f bu bf allOrders).emailSent = true := by
  have hempty : (RoyalMail.filterByPfx (RoyalMail.jsTrim cfg.refPfx) allOrders).isEmpty = false := by
    cases hcase : RoyalMail.filterByPfx (RoyalMail.jsTrim cfg.refPfx) allOrders with
    | nil => exact absurd hcase hne
    | cons a t => rfl
  refine ⟨?_, ?_, ?_, ?_⟩
  · simp only [RoyalMail.runJob, hempty, Bool.false_eq_true, if_false,
      RoyalMail.buildPackSheetsPDF, List.map_map]
    rfl
  · intro hp
    simp [RoyalMail.filterByPfx, hp]
  · simp only [RoyalMail.runJob, hempty, Bool.false_eq_true, if_false]
  · simp only [RoyalMail.runJob, hempty, Bool.false_eq_true, if_false]

/-- C8 witness: the VIV-1/JD-2/VIV-3 run with prefix VIV- renders exactly
the two VIV orders in order and logs the filtered count 2 with the active
filter. -/
theorem c8_filter_and_log_witness :
    (RoyalMail.runJob ⟨"Vivital", "VIV-", 90, "S", "N"⟩ (fun _ => none) none
        (fun _ => none)
        [⟨"VIV-1", "VIV-1", none, []⟩, ⟨"JD-2", "JD-2", none, []⟩,
         ⟨"VIV-3", "VIV-3", none, []⟩]).pages.map RoyalMail.ComposedPage.orderRef
      = ["VIV-1", "VIV-3"] ∧
    (RoyalMail.runJob ⟨"Vivital", "VIV-", 90, "S", "N"⟩ (fun _ => none) none
        (fun _ => none)
        [⟨"VIV-1", "VIV-1", none, []⟩, ⟨"JD-2", "JD-2", none, []⟩,
         ⟨"VIV-3", "VIV-3", none, []⟩]).logLine
      = "Sent 2 pack sheets. Window S -> N Prefix=VIV-" := by
  have h := c8_filter_and_log_amended ⟨"Vivital", "VIV-", 90, "S", "N"⟩
    (fun _ => none) none (fun _ => none)
    [⟨"VIV-1", "VIV-1", none, []⟩, ⟨"JD-2", "JD-2", none, []⟩,
     ⟨"VIV-3", "VIV-3", none, []⟩] (by decide)
  constructor
  · rw [h.1]
    decide
  · rw [h.2.2.1]
    decide

/-! ### C6: delivered webhook is idempotent -/

/-- Mapping a shipment table by a tracking-preserving function commutes
with the SELECT-by-tracking filter. -/
theorem filter_tracking_map (db : List RoyalMail.Shipment) (tn : String)
    (u : RoyalMail.Shipment → RoyalMail.Shipment)
    (hu : ∀ s, (u s).tracking_number = s.tracking_number) :
    (db.map u).filter (fun s => s.tracking_number == tn)
      = (db.filter (fun s => s.tracking_number == tn)).map u := by
  have hp : ((fun s : RoyalMail.Shipment => s.tracking_number == tn) ∘ u)
      = (fun s : RoyalMail.Shipment => s.tracking_number == tn) := by
    funext s
    simp [Function.comp, hu]
  rw [List.filter_map, hp]

/-- C6: with a stored shipment row for the tracking number that is not yet
processed, two successive delivered webhooks post exactly one Klaviyo
event: the first call posts it, flips processed_delivered to true and
answers OK; the second call finds the processed row, posts nothing,
changes nothing and still answers OK. -/
theorem c6_delivered_webhook_idempotent (now1 now2 : ℕ)
    (db : List RoyalMail.Shipment) (tn : String) (row : RoyalMail.Shipment)
    (htrim : RoyalMail.jsTrim tn = tn) (hne : tn ≠ "")
    (hrow : (db.filter (fun s => s.tracking_number == tn)).head? = some row)
    (hproc : row.processed_delivered = false) :
    (RoyalMail.royalmailWebhook true now1 db "delivered" tn).klaviyoPosts = 1 ∧
    (RoyalMail.royalmailWebhook true now1 db "delivered" tn).resp
      = RoyalMail.Resp.okJson ∧
    ((RoyalMail.royalmailWebhook true now1 db "delivered" tn).db.filter
        (fun s => s.tracking_number == tn)).head?
      = some (RoyalMail.markDelivered now1 row) ∧
    (RoyalMail.markDelivered now1 row).processed_delivered = true ∧
    (RoyalMail.royalmailWebhook true now2
        (RoyalMail.royalmailWebhook true now1 db "delivered" tn).db
        "delivered" tn).klaviyoPosts = 0 ∧
    (RoyalMail.royalmailWebhook true now2
        (RoyalMail.royalmailWebhook true now1 db "delivered" tn).db
        "delivered" tn).resp = RoyalMail.Resp.okJson ∧
    (RoyalMail.royalmailWebhook true now2
        (RoyalMail.royalmailWebhook true now1 db "delivered" tn).db
        "delivered" tn).db
      = (RoyalMail.royalmailWebhook true now1 db "delivered" tn).db := by
  have hlow : RoyalMail.jsToLower "delivered" = "delivered" := by decide
  have hr1 : RoyalMail.royalmailWebhook true now1 db "delivered" tn
      = ⟨db.map (fun s => if s.sid = row.sid
            then RoyalMail.markDelivered now1 s else s), 1, RoyalMail.Resp.okJson⟩ := by
    unfold RoyalMail.royalmailWebhook
    rw [hlow, htrim, if_neg hne, if_neg (by simp), hrow]
    simp [hproc]
  have hpres : ∀ s : RoyalMail.Shipment,
      ((if s.sid = row.sid then RoyalMail.markDelivered now1 s else s) :
        RoyalMail.Shipment).tracking_number = s.tracking_number := by
    intro s
    split <;> rfl
  have hfilter1' : ((db.map (fun s => if s.sid = row.sid
        then RoyalMail.markDelivered now1 s else s)).filter
        (fun s => s.tracking_number == tn)).head?
      = some (RoyalMail.markDelivered now1 row) := by
    rw [filter_tracking_map db tn _ hpres, List.head?_map, hrow]
    simp
  have hr2 : RoyalMail.royalmailWebhook true now2
      (db.map (fun s => if s.sid = row.sid
        then RoyalMail.markDelivered now1 s else s)) "delivered" tn
      = ⟨db.map (fun s => if s.sid = row.sid
          then RoyalMail.markDelivered now1 s else s), 0,
          RoyalMail.Resp.okJson⟩ := by
    unfold RoyalMail.royalmailWebhook
    rw [hlow, htrim, if_neg hne, if_neg (by simp), hfilter1']
    simp [RoyalMail.markDelivered]
  refine ⟨by rw [hr1], by rw [hr1], by simp only [hr1]; exact hfilter1', rfl,
    by simp only [hr1]; rw [hr2], by simp only [hr1]; rw [hr2],
    by simp only [hr1]; rw [hr2]⟩

/-- C6 witness: a concrete one-row table; the first delivered webhook posts
one event, the second posts none. -/
theorem c6_delivered_webhook_witness :
    (RoyalMail.royalmailWebhook true 5
        [⟨1, "o1", "a@b", "TN1", "royalmail", "in_transit", none, false, 0, 0⟩]
        "delivered" "TN1").klaviyoPosts = 1 ∧
    (RoyalMail.royalmailWebhook true 6
        (RoyalMail.royalmailWebhook true 5
          [⟨1, "o1", "a@b", "TN1", "royalmail", "in_transit", none, false, 0, 0⟩]
          "delivered" "TN1").db
        "delivered" "TN1").klaviyoPosts = 0 := by
  have h := c6_delivered_webhook_idempotent 5 6
    [⟨1, "o1", "a@b", "TN1", "royalmail", "in_transit", none, false, 0, 0⟩]
    "TN1" ⟨1, "o1", "a@b", "TN1", "royalmail", "in_transit", none, false, 0, 0⟩
    (by decide) (by decide) (by decide) rfl
  exact ⟨h.1, h.2.2.2.2.1⟩

/-! ### C9: fulfillment upsert only touches contact fields -/

/-- An upsert never shortens the table. -/
theorem upsertShipment_length_le (now : ℕ) (oid em car tn : String)
    (db : List RoyalMail.Shipment) :
    db.length ≤ (RoyalMail.upsertShipment now oid em car tn db).length := by
  unfold RoyalMail.upsertShipment
  split
  · rw [List.length_map]
  · rw [List.length_append]
    exact Nat.le_add_right _ _

/-- Positional effect of a single upsert on the pre-existing rows. -/
theorem upsertShipment_getElem? (now : ℕ) (oid em car tn : String)
    (db : List RoyalMail.Shipment) (i : ℕ) (hi : i < db.length) :
    (RoyalMail.upsertShipment now oid em car tn db)[i]?
      = (db[i]?).map (fun s => if s.tracking_number == tn
          then RoyalMail.applyFulfillmentUpdate now oid em car s else s) := by
  unfold RoyalMail.upsertShipment
  by_cases hany : db.any (fun s => s.tracking_number == tn) = true
  · rw [if_pos hany, List.getElem?_map]
  · rw [if_neg hany, List.getElem?_append_left hi]
    cases hdb : db[i]? with
    | none => rfl
    | some s =>
      have hs : s ∈ db := List.getElem?_mem hdb
      have hsn : (s.tracking_number == tn) = false := by
        rcases Bool.eq_false_or_eq_true (s.tracking_number == tn) with h | h
        · exact absurd (List.any_eq_true.mpr ⟨s, hs, h⟩) hany
        · exact h
      simp only [Option.map_some']
      rw [if_neg (by simp [hsn])]

/-- Positional effect of folding upserts for a list of tracking numbers. -/
theorem foldl_upsert_getElem? (now : ℕ) (oid em car : String)
    (L : List String) :
    ∀ (db : List RoyalMail.Shipment) (i : ℕ), i < db.length →
      (L.foldl (fun d tn => RoyalMail.upsertShipment now oid em car tn d) db)[i]?
        = (db[i]?).map (fun s => if s.tracking_number ∈ L
            then RoyalMail.applyFulfillmentUpdate now oid em car s else s) := by
  induction L with
  | nil =>
    intro db i hi
    simp
  | cons tn rest ih =>
    intro db i hi
    rw [List.foldl_cons]
    have hlen : i < (RoyalMail.upsertShipment now oid em car tn db).length :=
      lt_of_lt_of_le hi (upsertShipment_length_le now oid em car tn db)
    rw [ih (RoyalMail.upsertShipment now oid em car tn db) i hlen,
      upsertShipment_getElem? now oid em car tn db i hi, Option.map_map]
    cases hdb : db[i]? with
    | none => rfl
    | some s =>
      simp only [Option.map_some', Function.comp]
      congr 1
      by_cases h1 : s.tracking_number = tn
      · have hb : (s.tracking_number == tn) = true := by simp [h1]
        have hup : (RoyalMail.applyFulfillmentUpdate now oid em car s).tracking_number
            = s.tracking_number := rfl
        have hid : RoyalMail.applyFulfillmentUpdate now oid em car
            (RoyalMail.applyFulfillmentUpdate now oid em car s)
            = RoyalMail.applyFulfillmentUpdate now oid em car s := rfl
        by_cases h2 : s.tracking_number ∈ rest <;>
          simp [hb, hup, hid, List.mem_cons, h1, h2]
      · have hb : (s.tracking_number == tn) = false := by simp [h1]
        by_cases h2 : s.tracking_number ∈ rest <;>
          simp [hb, List.mem_cons, h1, h2]

/-- C9: for every pre-existing shipment row, a fulfillment webhook request
rewrites only order_id, email, carrier and updated_at — and only for rows
whose tracking number the request carries — while sid, status,
delivered_at, processed_delivered and created_at are left untouched, so a
re-sent fulfillment webhook can never reset a delivered state or re-arm
the one-time delivered notification. -/
theorem c9_fulfillment_updates_only_contact_fields (now : ℕ)
    (oid em car : String) (nums : List String)
    (db : List RoyalMail.Shipment) (i : ℕ) (hi : i < db.length) :
    (RoyalMail.shopifyFulfillment now oid em car nums db)[i]?
      = (db[i]?).map (fun s =>
          if s.tracking_number ∈ nums.filter (fun t => t != "")
          then RoyalMail.applyFulfillmentUpdate now oid em car s else s) ∧
    ((RoyalMail.shopifyFulfillment now oid em car nums db)[i]?).map
        (fun s => (s.sid, s.status, s.delivered_at, s.processed_delivered,
          s.created_at, s.tracking_number))
      = (db[i]?).map (fun s => (s.sid, s.status, s.delivered_at,
          s.processed_delivered, s.created_at, s.tracking_number)) := by
  have hmain := foldl_upsert_getElem? now oid em car
    (nums.filter (fun t => t != "")) db i hi
  refine ⟨hmain, ?_⟩
  unfold RoyalMail.shopifyFulfillment
  rw [hmain, Option.map_map]
  cases db[i]? with
  | none => rfl
  | some s =>
    simp only [Option.map_some', Function.comp]
    congr 1
    split <;> rfl

/-- C9 witness: a delivered, already-processed row keeps its status,
delivery timestamp and processed flag when the fulfillment webhook for its
tracking number arrives again, while its order_id is rewritten. -/
theorem c9_fulfillment_frame_witness :
    ((RoyalMail.shopifyFulfillment 9 "new-order" "new@e" "royalmail" ["TN1"]
        [⟨1, "old-order", "old@e", "TN1", "royalmail", "delivered", some 3,
          true, 0, 0⟩])[0]?).map
        (fun s => (s.status, s.delivered_at, s.processed_delivered, s.order_id))
      = some ("delivered", some 3, true, "new-order") := by
  have h := c9_fulfillment_updates_only_contact_fields 9 "new-order" "new@e"
    "royalmail" ["TN1"]
    [⟨1, "old-order", "old@e", "TN1", "royalmail", "delivered", some 3,
      true, 0, 0⟩] 0 (by decide)
  rw [h.1]
  decide

end RoyalMail
